import Mathlib

/-!
# Verification of the `chatbot_memory` consolidation engine

Shallow embedding of `src/chatbot_memory/backends.py` and
`src/chatbot_memory/memory.py`.

Modelling conventions:
* Python floats (the `truthfulness` / `importance` scores) are modelled as `ℚ`.
* ISO timestamp strings (`datetime.now().isoformat()`) compare
  lexicographically, i.e. chronologically; they are modelled as a `Nat`
  clock value.  All `datetime.now()` calls inside one Python method call are
  modelled as a single instant `t` passed as an argument.
* A Python metadata `dict` is modelled as `Metadata`: one `Option` field per
  key the code ever reads, plus `extra` for unrecognized keys (whose values
  the code never reads).
* The MySQL `long_term` table is a `Store`: a list of `Record`s in insertion
  order together with the `AUTO_INCREMENT` counter.  `INSERT ... ON DUPLICATE
  KEY UPDATE` over the unique key `text` is an upsert; `text LIKE '%q%'` is a
  substring test; `ORDER BY importance DESC, last_accessed DESC` is an
  insertion sort on that lexicographic rank.  `MySQLBackend.add` returns a
  `LAST_INSERT_ID` value that no caller in the repository uses, so the model
  returns only the new store.
* The optional `memory_analyze.analyze_data` capability is an
  `Option Analyzer` parameter.  A fact dict is a `Fact` whose fields are
  `Option`s (`none` models a missing key).
-/

namespace ChatbotMemory

/-- One row of the MySQL `long_term` table (`backends.py`, `initialize`). -/
structure Record where
  id : Nat
  text : String
  truthfulness : ℚ
  importance : ℚ
  sentiment : String
  source : String
  parent : Option Nat
  timestamp : Nat
  last_accessed : Nat
deriving Repr, DecidableEq

/-- The `long_term` table: rows in insertion order plus the AUTO_INCREMENT
counter for the next `id`. -/
structure Store where
  records : List Record
  nextId : Nat
deriving Repr, DecidableEq

def Store.empty : Store := { records := [], nextId := 1 }

/-- A Python metadata dict.  Each field is `some v` when the corresponding key
is present.  `type` is the key `'type'` (read by `MySQLBackend.add` for the
`source` column); `source` is the key `'source'` (written by
`MySQLBackend.update`).  `extra` models any unrecognized keys. -/
structure Metadata where
  truthfulness : Option ℚ := none
  importance : Option ℚ := none
  sentiment : Option String := none
  source : Option String := none
  type : Option String := none
  parent : Option (Option Nat) := none
  timestamp : Option Nat := none
  last_accessed : Option Nat := none
  extra : List String := []
deriving Repr, DecidableEq

def Metadata.empty : Metadata := {}

/-- Effect of `MySQLBackend.update`'s SQL `UPDATE` on the row with the matching
id: each whitelisted key present in the dict overwrites the column; the
whitelist is `truthfulness, importance, sentiment, source, parent,
last_accessed` (`backends.py` line 89), so `text`, `timestamp` and
unrecognized keys are never touched. -/
def applyMeta (r : Record) (m : Metadata) : Record :=
  { r with
    truthfulness := m.truthfulness.getD r.truthfulness,
    importance := m.importance.getD r.importance,
    sentiment := m.sentiment.getD r.sentiment,
    source := m.source.getD r.source,
    parent := m.parent.getD r.parent,
    last_accessed := m.last_accessed.getD r.last_accessed }

/-- `MySQLBackend.update(id_, metadata)` (`backends.py` lines 81-97).
When no whitelisted key is supplied no SQL runs, which coincides with
applying the empty update.  An id matching no row updates nothing and
raises no error. -/
def Store.update (st : Store) (i : Nat) (m : Metadata) : Store :=
  { st with records := st.records.map (fun r => if r.id = i then applyMeta r m else r) }

/-- The row `MySQLBackend.add` inserts when `text` is fresh: Python-side
defaults (`truthfulness`/`importance` 0.5, `sentiment` `'neutral'`, `source`
from key `'type'` else `'unknown'`, `timestamp` defaulting to now,
`last_accessed` defaulting to `timestamp`). -/
def newRecord (i : Nat) (text : String) (m : Metadata) (now : Nat) : Record :=
  { id := i
    text := text
    truthfulness := m.truthfulness.getD (1/2)
    importance := m.importance.getD (1/2)
    sentiment := m.sentiment.getD "neutral"
    source := m.type.getD "unknown"
    parent := m.parent.getD none
    timestamp := m.timestamp.getD now
    last_accessed := m.last_accessed.getD (m.timestamp.getD now) }

/-- The `ON DUPLICATE KEY UPDATE` branch of `MySQLBackend.add`: overwrites
`truthfulness, importance, sentiment, source, parent` with the values that
would have been inserted and sets `last_accessed`; the duplicate row keeps its
`id`, `text` and creation `timestamp`. -/
def dupApply (r : Record) (m : Metadata) (now : Nat) : Record :=
  { r with
    truthfulness := m.truthfulness.getD (1/2)
    importance := m.importance.getD (1/2)
    sentiment := m.sentiment.getD "neutral"
    source := m.type.getD "unknown"
    parent := m.parent.getD none
    last_accessed := m.last_accessed.getD (m.timestamp.getD now) }

/-- `MySQLBackend.add(text, metadata)` (`backends.py` lines 48-79):
`INSERT ... ON DUPLICATE KEY UPDATE` against the unique key on `text`. -/
def Store.add (st : Store) (now : Nat) (text : String) (m : Metadata) : Store :=
  if st.records.any (fun r => decide (r.text = text)) then
    { st with records := st.records.map (fun r => if r.text = text then dupApply r m now else r) }
  else
    { records := st.records ++ [newRecord st.nextId text m now], nextId := st.nextId + 1 }

/-- SQL `hay LIKE '%needle%'`: substring containment. -/
def likeContains (hay needle : String) : Bool :=
  decide (needle.toList <:+: hay.toList)

/-- `ORDER BY importance DESC, last_accessed DESC`: `a` may precede `b`. -/
def rankGe (a b : Record) : Bool :=
  if a.importance = b.importance then decide (b.last_accessed ≤ a.last_accessed)
  else decide (b.importance < a.importance)

def insertRanked (r : Record) : List Record → List Record
  | [] => [r]
  | x :: xs => if rankGe r x then r :: x :: xs else x :: insertRanked r xs

def sortRanked : List Record → List Record
  | [] => []
  | x :: xs => insertRanked x (sortRanked xs)

/-- `MySQLBackend.query(query_text, top_k)` (`backends.py` lines 99-117):
rows whose `text` contains `query_text`, ordered by `importance DESC,
last_accessed DESC`, limited to `top_k`. -/
def Store.query (st : Store) (q : String) (topK : Nat) : List Record :=
  (sortRanked (st.records.filter (fun r => likeContains r.text q))).take topK

/-- One fact dict produced by the optional `memory_analyze.analyze_data`
capability.  A `none` field models a dict in which that key is missing. -/
structure Fact where
  text : Option String := none
  truthfulness : Option ℚ := none
  importance : Option ℚ := none
  sentiment : Option String := none
deriving Repr, DecidableEq

/-- `analyze_data(source, content, query)`.  The `analyze_kwargs` pass-through
is opaque configuration and is absorbed into the function value. -/
def Analyzer : Type := String → String → String → List Fact

/-- The synthetic fallback fact
`{'text': content, 'truthfulness': 0.5, 'importance': 0.5, 'sentiment': 'neutral'}`
(`backends.py` lines 132 and 134). -/
def fallbackFact (content : String) : Fact :=
  { text := some content, truthfulness := some (1/2),
    importance := some (1/2), sentiment := some "neutral" }

/-- The fact `backends.py`'s `MemoryManager.process_content` consumes
(lines 128-136): the head of the analysis result, or the synthetic fallback
when the capability is absent, the result is empty, or its head has no
`'text'` key. -/
def analysisFact (analyze : Option Analyzer) (source content query : String) : Fact :=
  match analyze with
  | none => fallbackFact content
  | some f =>
    match f source content query with
    | [] => fallbackFact content
    | fact :: _ => if fact.text = none then fallbackFact content else fact

/-- The metadata dict built at `backends.py` lines 137-145. -/
def factMetadata (fact : Fact) (source : String) (parentId : Option Nat) (t : Nat) : Metadata :=
  { truthfulness := some (fact.truthfulness.getD (1/2)),
    importance := some (fact.importance.getD (1/2)),
    sentiment := some (fact.sentiment.getD "neutral"),
    source := some source,
    parent := some parentId,
    timestamp := some t,
    last_accessed := some t }

/-- In-process state of `backends.py`'s `MemoryManager`: the
`short_term` dict of parallel `documents`/`metadatas` lists plus the
MySQL-backed long-term store. -/
structure BState where
  documents : List String
  metadatas : List Metadata
  store : Store
deriving Repr, DecidableEq

def emptyB : BState := { documents := [], metadatas := [], store := Store.empty }

/-- Short-term step of `backends.py`'s `process_content` (lines 147-154):
append if the content is not present; on overflow pop the oldest
document/metadata pair and promote it via `MySQLBackend.add`. -/
def bShortTermAdd (maxSize : Nat) (st : BState) (content : String)
    (metadata : Metadata) (t : Nat) : BState :=
  if content ∈ st.documents then st
  else
    let docs := st.documents ++ [content]
    let metas := st.metadatas ++ [metadata]
    if maxSize < docs.length then
      { documents := docs.tail, metadatas := metas.tail,
        store := Store.add st.store t (docs.headD "") (metas.headD Metadata.empty) }
    else
      { st with documents := docs, metadatas := metas }

/-- The metadata written on the merge path when the analyzer is present and
returned a valid fresh assessment (`backends.py` lines 165-171). -/
def reassessMeta (nf : Fact) (r : Record) (source : String) (t : Nat) : Metadata :=
  { truthfulness := some (nf.truthfulness.getD r.truthfulness),
    importance := some (nf.importance.getD r.importance),
    sentiment := some (nf.sentiment.getD r.sentiment),
    source := some source,
    last_accessed := some t }

/-- The metadata written on the merge path when the analyzer is absent
(`backends.py` lines 174-177). -/
def sourceTouchMeta (source : String) (t : Nat) : Metadata :=
  { source := some source, last_accessed := some t }

/-- "Update long-term if exists" step of `backends.py`'s `process_content`
(lines 156-178): top-1 substring query; if a record is found, re-run the
analyzer (when present) and overwrite its scores with the fresh assessment,
else (analyzer absent) touch only `source` and `last_accessed`.  An analyzer
that is present but returns an invalid result causes no update at all. -/
def bLongTermMerge (analyze : Option Analyzer) (st : BState)
    (source content query : String) (t : Nat) : BState :=
  match Store.query st.store content 1 with
  | [] => st
  | r :: _ =>
    match analyze with
    | some f =>
      match f source content query with
      | [] => st
      | nf :: _ =>
        if nf.text = none then st
        else { st with store := Store.update st.store r.id (reassessMeta nf r source t) }
    | none => { st with store := Store.update st.store r.id (sourceTouchMeta source t) }

/-- `backends.py`'s `MemoryManager.process_content(source, content, query,
parent_id)` (lines 126-178). -/
def bProcessContent (analyze : Option Analyzer) (maxSize : Nat) (st : BState)
    (source content query : String) (parentId : Option Nat) (t : Nat) : BState :=
  let fact := analysisFact analyze source content query
  let metadata := factMetadata fact source parentId t
  let st1 := bShortTermAdd maxSize st content metadata t
  bLongTermMerge analyze st1 source content query t

/-- Arguments of one `process_content` call. -/
structure Call where
  source : String
  content : String
  query : String
  parentId : Option Nat
  t : Nat
deriving Repr, DecidableEq

/-- A sequence of `process_content` calls against `backends.py`'s manager. -/
def runCalls (analyze : Option Analyzer) (maxSize : Nat) : BState → List Call → BState
  | st, [] => st
  | st, c :: rest =>
    runCalls analyze maxSize
      (bProcessContent analyze maxSize st c.source c.content c.query c.parentId c.t) rest

/-- The texts stored in the long-term table, in insertion (id) order. -/
def ltTexts (st : BState) : List String := st.store.records.map Record.text

/-- One entry of the ChromaDB `short_term` collection as `memory.py` fills it:
chroma id `f'{source}_{timestamp}'`, the document text, and the metadata keys
`type`, `timestamp`, `truthfulness`, `importance` (lines 56-65). -/
structure ChromaEntry where
  eid : String
  doc : String
  typ : String
  timestamp : Nat
  truthfulness : ℚ
  importance : ℚ
deriving Repr, DecidableEq

/-- `collection.add`: ChromaDB keeps entries in insertion order and skips an
add whose id already exists (library semantics; it logs a warning). -/
def chromaAdd (coll : List ChromaEntry) (e : ChromaEntry) : List ChromaEntry :=
  if coll.any (fun x => decide (x.eid = e.eid)) then coll else coll ++ [e]

/-- `collection.query(query_texts=[text], n_results=1)` reduced to the only
field `consolidate_memory` reads: the nearest distance, under the embedding
model's distance function `dist`.  `none` models the empty-collection case in
which `results['distances']` holds no distance. -/
def chromaMinDist (dist : String → String → ℚ) (coll : List ChromaEntry)
    (text : String) : Option ℚ :=
  match coll.map (fun e => dist text e.doc) with
  | [] => none
  | d :: ds => some (ds.foldl min d)

/-- The similarity gate of `consolidate_memory` (`memory.py` line 78):
`results['distances'] and results['distances'][0] and
results['distances'][0][0] < 0.2`. -/
def chromaGate (dist : String → String → ℚ) (coll : List ChromaEntry)
    (text : String) : Bool :=
  match chromaMinDist dist coll text with
  | none => false
  | some d => decide (d < 1/5)

/-- `new_truth = min(1.0, (existing + incoming) / 2 + 0.1)`
(`memory.py` line 82). -/
def mergeTruthfulness (old new : ℚ) : ℚ := min 1 ((old + new) / 2 + 1/10)

/-- `new_importance = min(1.0, existing + 0.05)` (`memory.py` line 83);
independent of the incoming fact's importance. -/
def mergeImportance (old : ℚ) : ℚ := min 1 (old + 1/20)

/-- In-process state of `memory.py`'s `MemoryManager`: the ChromaDB
short-term collection plus the long-term backend. -/
structure MState where
  shortTerm : List ChromaEntry
  store : Store
deriving Repr, DecidableEq

def emptyM : MState := { shortTerm := [], store := Store.empty }

/-- `memory.py`'s `MemoryManager.consolidate_memory(text, truthfulness,
importance)` (lines 73-93): if the short-term similarity gate passes and the
backend query (substring, top-5, importance-ranked) finds an existing record,
update it with the merge formulas (the supplied `timestamp` key is dropped by
`MySQLBackend.update`'s whitelist); in every other case fall through to the
upsert `MySQLBackend.add`. -/
def consolidateMemory (dist : String → String → ℚ) (st : MState) (text : String)
    (truthfulness importance : ℚ) (t : Nat) : MState :=
  if chromaGate dist st.shortTerm text = true then
    match Store.query st.store text 5 with
    | r :: _ =>
      { st with store := Store.update st.store r.id
                  { truthfulness := some (mergeTruthfulness r.truthfulness truthfulness),
                    importance := some (mergeImportance r.importance),
                    timestamp := some t, last_accessed := some t } }
    | [] =>
      { st with store := Store.add st.store t text
                  { truthfulness := some truthfulness, importance := some importance,
                    timestamp := some t, last_accessed := some t } }
  else
    { st with store := Store.add st.store t text
                { truthfulness := some truthfulness, importance := some importance,
                  timestamp := some t, last_accessed := some t } }

/-- One iteration of the `for fact in facts` loop of `memory.py`'s
`process_content` (lines 54-66): store the fact in the short-term collection
and consolidate it.  Accessing a missing `'text'`/`'truthfulness'`/
`'importance'` key raises a `KeyError`; the exception is modelled as `none`
(the partially mutated state it would leave behind is not modelled, and no
claim depends on it). -/
def mFactStep (dist : String → String → ℚ) (source : String) (t : Nat)
    (acc : Option MState) (fact : Fact) : Option MState :=
  match acc with
  | none => none
  | some s =>
    match fact.text, fact.truthfulness, fact.importance with
    | some ftext, some ftr, some fim =>
      let s1 : MState :=
        { s with shortTerm := chromaAdd s.shortTerm
                   { eid := source ++ "_" ++ toString t, doc := ftext, typ := source,
                     timestamp := t, truthfulness := ftr, importance := fim } }
      some (consolidateMemory dist s1 ftext ftr fim t)
    | _, _, _ => none

/-- `memory.py`'s `MemoryManager.process_content(source, content, query)`
(lines 37-71).  The analyzer-absent fallback fact has no `'sentiment'` key
(line 47); the `isinstance(facts, list)` fallback cannot fire in the model
because the analyzer returns a list by type.  The final trim (lines 68-71)
deletes the chroma id `f'doc_{oldest_timestamp}'`, which matches no stored id
of the form `f'{source}_{timestamp}'` unless `source == 'doc'`. -/
def mProcessContent (dist : String → String → ℚ) (analyze : Option Analyzer)
    (maxSize : Nat) (st : MState) (source content query : String) (t : Nat) :
    Option MState :=
  let facts := match analyze with
    | some f => f source content query
    | none => [{ text := some content, truthfulness := some (1/2),
                 importance := some (1/2) }]
  match facts.foldl (mFactStep dist source t) (some st) with
  | none => none
  | some s2 =>
    if maxSize < s2.shortTerm.length then
      match s2.shortTerm with
      | [] => some s2
      | e :: _ =>
        some { s2 with shortTerm :=
          s2.shortTerm.filter (fun x => decide (x.eid ≠ "doc_" ++ toString e.timestamp)) }
    else some s2

/-- `memory.py`'s `MemoryManager.get_long_term(query_text)` (lines 101-105):
a pure read of the backend, with the default `top_k = 5`. -/
def mGetLongTerm (st : MState) (queryText : String) : List Record :=
  Store.query st.store queryText 5

/-- Example row used by concrete counterexamples and witnesses. -/
def recA : Record :=
  { id := 1, text := "a", truthfulness := 1/2, importance := 1/2,
    sentiment := "neutral", source := "s", parent := none,
    timestamp := 0, last_accessed := 0 }

/-- Example one-row store. -/
def storeA : Store := { records := [recA], nextId := 2 }

/-- The similarity scorer degraded to exact-string match, used by concrete
witnesses (the spec's `SimilarityScorer` "may degrade to exact-string
match"). -/
def exDist : String → String → ℚ := fun a b => if a = b then 0 else 1

/-- Example chroma entry holding the text of `recA`. -/
def exEntry : ChromaEntry :=
  { eid := "s_0", doc := "a", typ := "s", timestamp := 0,
    truthfulness := 1/2, importance := 1/2 }

/-- Example `memory.py` manager state whose stores both know the text
`"a"`. -/
def exM : MState := { shortTerm := [exEntry], store := storeA }

/-- The three `process_content` calls of the spec's capacity-2 test
scenario. -/
def exCalls : List Call :=
  [{ source := "s", content := "A", query := "", parentId := none, t := 0 },
   { source := "s", content := "B", query := "", parentId := none, t := 1 },
   { source := "s", content := "C", query := "", parentId := none, t := 2 }]

/-! ## Helper lemmas -/

theorem mem_insertRanked {x r : Record} {l : List Record} :
    x ∈ insertRanked r l ↔ x = r ∨ x ∈ l := by
  induction l with
  | nil => simp [insertRanked]
  | cons y ys ih =>
    unfold insertRanked
    cases hr : rankGe r y
    · simp [ih]
      tauto
    · simp [ih]

theorem mem_sortRanked {x : Record} {l : List Record} :
    x ∈ sortRanked l ↔ x ∈ l := by
  induction l with
  | nil => simp [sortRanked]
  | cons y ys ih => simp [sortRanked, mem_insertRanked, ih]

theorem mem_of_query {r : Record} {st : Store} {q : String} {k : Nat}
    (h : r ∈ Store.query st q k) :
    r ∈ st.records ∧ likeContains r.text q = true := by
  unfold Store.query at h
  have h1 := List.mem_of_mem_take h
  rw [mem_sortRanked] at h1
  exact ⟨(List.mem_filter.mp h1).1, (List.mem_filter.mp h1).2⟩

theorem mem_update_self {st : Store} {r : Record} (hr : r ∈ st.records) (m : Metadata) :
    applyMeta r m ∈ (Store.update st r.id m).records := by
  unfold Store.update
  exact List.mem_map.mpr ⟨r, hr, by simp⟩

theorem map_text_update (st : Store) (i : Nat) (m : Metadata) :
    (Store.update st i m).records.map Record.text = st.records.map Record.text := by
  unfold Store.update
  simp only [List.map_map]
  apply List.map_congr_left
  intro r _
  by_cases h : r.id = i <;> simp [h, applyMeta]

theorem map_text_add_dup (st : Store) (now : Nat) (x : String) (m : Metadata)
    (h : st.records.any (fun r => decide (r.text = x)) = true) :
    (Store.add st now x m).records.map Record.text = st.records.map Record.text := by
  unfold Store.add
  rw [if_pos h]
  simp only [List.map_map]
  apply List.map_congr_left
  intro r _
  by_cases hx : r.text = x <;> simp [hx, dupApply]

theorem map_text_add_fresh (st : Store) (now : Nat) (x : String) (m : Metadata)
    (h : x ∉ st.records.map Record.text) :
    (Store.add st now x m).records.map Record.text = st.records.map Record.text ++ [x] := by
  unfold Store.add
  have hany : st.records.any (fun r => decide (r.text = x)) = false := by
    rw [List.any_eq_false]
    intro r hr
    simp only [decide_eq_true_eq]
    intro he
    exact h (he ▸ List.mem_map_of_mem Record.text hr)
  rw [if_neg (by simp [hany])]
  simp [newRecord]

theorem nodup_text_add (st : Store) (now : Nat) (x : String) (m : Metadata)
    (h : (st.records.map Record.text).Nodup) :
    ((Store.add st now x m).records.map Record.text).Nodup := by
  by_cases hx : x ∈ st.records.map Record.text
  · have hany : st.records.any (fun r => decide (r.text = x)) = true := by
      rw [List.any_eq_true]
      obtain ⟨r, hr, he⟩ := List.mem_map.mp hx
      exact ⟨r, hr, by simp [he]⟩
    rw [map_text_add_dup st now x m hany]
    exact h
  · rw [map_text_add_fresh st now x m hx]
    simp [List.nodup_append, h, hx]

/-- The "update long-term if exists" step only rewrites score columns in
place: it never changes the stored texts, and it leaves the short-term lists
untouched. -/
theorem bLongTermMerge_frame (analyze : Option Analyzer) (st : BState)
    (source content query : String) (t : Nat) :
    ltTexts (bLongTermMerge analyze st source content query t) = ltTexts st ∧
    (bLongTermMerge analyze st source content query t).documents = st.documents ∧
    (bLongTermMerge analyze st source content query t).metadatas = st.metadatas := by
  unfold bLongTermMerge
  split
  · exact ⟨rfl, rfl, rfl⟩
  · split
    · split
      · exact ⟨rfl, rfl, rfl⟩
      · split
        · exact ⟨rfl, rfl, rfl⟩
        · exact ⟨by simpa [ltTexts] using map_text_update st.store _ _, rfl, rfl⟩
    · exact ⟨by simpa [ltTexts] using map_text_update st.store _ _, rfl, rfl⟩

/-- One `process_content` call against `backends.py`'s manager preserves
pairwise-distinct long-term texts. -/
theorem nodup_ltTexts_step (analyze : Option Analyzer) (maxSize : Nat) (st : BState)
    (source content query : String) (pid : Option Nat) (t : Nat)
    (h : (ltTexts st).Nodup) :
    (ltTexts (bProcessContent analyze maxSize st source content query pid t)).Nodup := by
  have h1 : ∀ M : Metadata, (ltTexts (bShortTermAdd maxSize st content M t)).Nodup := by
    intro M
    unfold bShortTermAdd
    split
    · exact h
    · dsimp only
      split
      · exact nodup_text_add st.store t _ _ h
      · exact h
  have h2 := (bLongTermMerge_frame analyze
    (bShortTermAdd maxSize st content
      (factMetadata (analysisFact analyze source content query) source pid t) t)
    source content query t).1
  show (ltTexts (bLongTermMerge analyze (bShortTermAdd maxSize st content
      (factMetadata (analysisFact analyze source content query) source pid t) t)
      source content query t)).Nodup
  rw [h2]
  exact h1 _

theorem nodup_ltTexts_run (analyze : Option Analyzer) (maxSize : Nat)
    (calls : List Call) (st : BState) (h : (ltTexts st).Nodup) :
    (ltTexts (runCalls analyze maxSize st calls)).Nodup := by
  induction calls generalizing st with
  | nil => exact h
  | cons c rest ih =>
    exact ih _ (nodup_ltTexts_step analyze maxSize st c.source c.content c.query c.parentId c.t h)

/-- Invariant step for the eviction-ordering proof, stated over the
composition of the short-term step and the merge step with an arbitrary
metadata dict `M`: processing a content `c` not seen before appends `c` to
the concatenation "long-term texts ++ buffer", keeps the buffer length at
`min (seen+1) capacity`, and keeps the two short-term lists aligned. -/
theorem inv_step_core (analyze : Option Analyzer) (maxSize : Nat) (st : BState)
    (seen : List String) (c : String) (M : Metadata) (s q : String) (t : Nat)
    (h1 : ltTexts st ++ st.documents = seen)
    (h2 : st.documents.length = min seen.length maxSize)
    (h3 : st.metadatas.length = st.documents.length)
    (hndSeen : seen.Nodup) (hcseen : c ∉ seen) :
    ltTexts (bLongTermMerge analyze (bShortTermAdd maxSize st c M t) s c q t) ++
        (bLongTermMerge analyze (bShortTermAdd maxSize st c M t) s c q t).documents =
      seen ++ [c] ∧
    (bLongTermMerge analyze (bShortTermAdd maxSize st c M t) s c q t).documents.length =
      min (seen.length + 1) maxSize ∧
    (bLongTermMerge analyze (bShortTermAdd maxSize st c M t) s c q t).metadatas.length =
      (bLongTermMerge analyze (bShortTermAdd maxSize st c M t) s c q t).documents.length := by
  obtain ⟨hT, hD, hMt⟩ := bLongTermMerge_frame analyze (bShortTermAdd maxSize st c M t) s c q t
  rw [hT, hD, hMt]
  have hcdocs : c ∉ st.documents := fun hd => hcseen (h1 ▸ List.mem_append_right _ hd)
  unfold bShortTermAdd
  rw [if_neg hcdocs]
  dsimp only
  by_cases hover : maxSize < (st.documents ++ [c]).length
  · rw [if_pos hover]
    have hdlen : st.documents.length = maxSize := by
      rw [List.length_append] at hover
      simp only [List.length_singleton] at hover
      omega
    have hseenlen : maxSize ≤ seen.length := by omega
    cases hdocs : st.documents with
    | nil =>
      have hms : maxSize = 0 := by rw [hdocs] at hdlen; simpa using hdlen.symm
      have hmet : st.metadatas = [] :=
        List.length_eq_zero.mp (by rw [hdocs] at h3; simpa using h3)
      rw [hdocs] at h1
      unfold ltTexts at h1
      rw [List.append_nil] at h1
      rw [hmet]
      dsimp only [ltTexts]
      simp only [List.nil_append, List.headD_cons, List.tail_cons, List.append_nil]
      refine ⟨?_, ?_, ?_⟩
      · rw [map_text_add_fresh st.store t c M (by rw [h1]; exact hcseen), h1]
      · rw [hms]
        simp
      · simp
    | cons d ds =>
      have hdlen2 : ds.length + 1 = maxSize := by rw [hdocs] at hdlen; simpa using hdlen
      have hmslen : st.metadatas.length = ds.length + 1 := by
        rw [hdocs] at h3
        simpa using h3
      cases hmet : st.metadatas with
      | nil => rw [hmet] at hmslen; simp at hmslen
      | cons m0 ms =>
        have hms2 : ms.length = ds.length := by rw [hmet] at hmslen; simpa using hmslen
        rw [hdocs] at h1
        unfold ltTexts at h1
        dsimp only [ltTexts]
        simp only [List.cons_append, List.headD_cons, List.tail_cons]
        have hdfresh : d ∉ st.store.records.map Record.text := by
          intro hdl
          have hnd2 : (st.store.records.map Record.text ++ (d :: ds)).Nodup := by
            rw [h1]
            exact hndSeen
          exact (List.nodup_append.mp hnd2).2.2 hdl (List.mem_cons_self d ds)
        refine ⟨?_, ?_, ?_⟩
        · rw [map_text_add_fresh st.store t d m0 hdfresh, ← h1]
          simp
        · simp only [List.length_append, List.length_singleton]
          omega
        · simp only [List.length_append, List.length_singleton]
          omega
  · rw [if_neg hover]
    rw [List.length_append, List.length_singleton] at hover
    dsimp only [ltTexts]
    refine ⟨?_, ?_, ?_⟩
    · show st.store.records.map Record.text ++ (st.documents ++ [c]) = seen ++ [c]
      unfold ltTexts at h1
      rw [← List.append_assoc, h1]
    · simp only [List.length_append, List.length_singleton]
      omega
    · simp only [List.length_append, List.length_singleton]
      omega

/-- Invariant step at the level of `process_content`. -/
theorem inv_step (analyze : Option Analyzer) (maxSize : Nat) (st : BState)
    (seen : List String) (cl : Call)
    (h1 : ltTexts st ++ st.documents = seen)
    (h2 : st.documents.length = min seen.length maxSize)
    (h3 : st.metadatas.length = st.documents.length)
    (hnd : (seen ++ [cl.content]).Nodup) :
    ltTexts (bProcessContent analyze maxSize st cl.source cl.content cl.query cl.parentId cl.t) ++
        (bProcessContent analyze maxSize st cl.source cl.content cl.query cl.parentId cl.t).documents =
      seen ++ [cl.content] ∧
    (bProcessContent analyze maxSize st cl.source cl.content cl.query cl.parentId cl.t).documents.length =
      min (seen.length + 1) maxSize ∧
    (bProcessContent analyze maxSize st cl.source cl.content cl.query cl.parentId cl.t).metadatas.length =
      (bProcessContent analyze maxSize st cl.source cl.content cl.query cl.parentId cl.t).documents.length := by
  have hndSeen : seen.Nodup := (List.nodup_append.mp hnd).1
  have hcseen : cl.content ∉ seen := by
    have hdisj := (List.nodup_append.mp hnd).2.2
    exact fun hmem => hdisj hmem (by simp)
  exact inv_step_core analyze maxSize st seen cl.content
    (factMetadata (analysisFact analyze cl.source cl.content cl.query) cl.source cl.parentId cl.t)
    cl.source cl.query cl.t h1 h2 h3 hndSeen hcseen

/-- The invariant carried over a whole sequence of calls. -/
theorem inv_run (analyze : Option Analyzer) (maxSize : Nat)
    (calls : List Call) (st : BState) (seen : List String)
    (h1 : ltTexts st ++ st.documents = seen)
    (h2 : st.documents.length = min seen.length maxSize)
    (h3 : st.metadatas.length = st.documents.length)
    (hnd : (seen ++ calls.map Call.content).Nodup) :
    ltTexts (runCalls analyze maxSize st calls) ++
        (runCalls analyze maxSize st calls).documents =
      seen ++ calls.map Call.content ∧
    (runCalls analyze maxSize st calls).documents.length =
      min (seen ++ calls.map Call.content).length maxSize ∧
    (runCalls analyze maxSize st calls).metadatas.length =
      (runCalls analyze maxSize st calls).documents.length := by
  induction calls generalizing st seen with
  | nil =>
    simp only [runCalls, List.map_nil, List.append_nil]
    exact ⟨h1, by simpa using h2, h3⟩
  | cons cl rest ih =>
    have hnd2 : ((seen ++ [cl.content]) ++ rest.map Call.content).Nodup := by
      simpa [List.append_assoc] using hnd
    have hnd1 : (seen ++ [cl.content]).Nodup := (List.nodup_append.mp hnd2).1
    obtain ⟨g1, g2, g3⟩ := inv_step analyze maxSize st seen cl h1 h2 h3 hnd1
    have hres := ih
      (bProcessContent analyze maxSize st cl.source cl.content cl.query cl.parentId cl.t)
      (seen ++ [cl.content]) g1 (by rw [g2]; simp) g3 hnd2
    simpa [runCalls, List.append_assoc] using hres

/-- Claim C3 (on `backends.py`'s manager): after `maxSize + k`
pairwise-distinct contents (`k ≥ 1`) are processed from a fresh manager, the
short-term buffer holds exactly the most recent `maxSize` contents in
insertion order, and the `k` oldest have been promoted to the long-term
store in their original insertion order — eviction is strict FIFO, never by
importance. -/
theorem claim3_eviction_fifo (analyze : Option Analyzer) (maxSize k : Nat)
    (calls : List Call) (hlen : calls.length = maxSize + k) (hk : 1 ≤ k)
    (hnd : (calls.map Call.content).Nodup) :
    (runCalls analyze maxSize emptyB calls).documents =
      (calls.map Call.content).drop k ∧
    ltTexts (runCalls analyze maxSize emptyB calls) =
      (calls.map Call.content).take k := by
  obtain ⟨H1, H2, -⟩ := inv_run analyze maxSize calls emptyB []
    (by simp [ltTexts, emptyB, Store.empty]) (by simp [emptyB]) (by simp [emptyB])
    (by simpa using hnd)
  simp only [List.nil_append] at H1 H2
  have hclen : (calls.map Call.content).length = maxSize + k := by simp [hlen]
  have hdlen : (runCalls analyze maxSize emptyB calls).documents.length = maxSize := by
    rw [H2, hclen]
    omega
  have hltlen : (ltTexts (runCalls analyze maxSize emptyB calls)).length = k := by
    have hlen2 := congrArg List.length H1
    rw [List.length_append, hclen, hdlen] at hlen2
    omega
  constructor
  · have hdrop := congrArg (List.drop (ltTexts (runCalls analyze maxSize emptyB calls)).length) H1
    rw [List.drop_left, hltlen] at hdrop
    exact hdrop
  · have htake := congrArg (List.take (ltTexts (runCalls analyze maxSize emptyB calls)).length) H1
    rw [List.take_left, hltlen] at htake
    exact htake

/-- Claim C3 witness: the capacity-2, three-distinct-facts instance. -/
theorem claim3_eviction_fifo_witness :
    (exCalls.map Call.content).Nodup ∧
    (runCalls none 2 emptyB exCalls).documents = (exCalls.map Call.content).drop 1 ∧
    ltTexts (runCalls none 2 emptyB exCalls) = (exCalls.map Call.content).take 1 := by
  have h := claim3_eviction_fifo none 2 1 exCalls (by decide) (by decide) (by decide)
  exact ⟨by decide, h.1, h.2⟩

/-! ## Theorems -/

/-- Claim C9, counterexample: `MySQLBackend.update` on an id that does not
exist (`storeA` has ids `{1}` only) completes silently and modifies no
record, contradicting the claimed `RecordNotFound` failure. -/
theorem claim9_counterexample :
    Store.update storeA 99 { truthfulness := some (9/10) } = storeA := by
  rfl

/-- Claim C9 (amended): for every id absent from the `long_term` table,
`MySQLBackend.update(id, metadata)` completes silently, modifying no record;
no `RecordNotFound` error exists in the code and no retry is performed. -/
theorem claim9_update_missing_id_silent (st : Store) (i : Nat) (m : Metadata)
    (h : ∀ r ∈ st.records, r.id ≠ i) : Store.update st i m = st := by
  unfold Store.update
  have hmap : st.records.map (fun r => if r.id = i then applyMeta r m else r) = st.records := by
    have h2 : ∀ r ∈ st.records, (if r.id = i then applyMeta r m else r) = r := by
      intro r hr
      simp [h r hr]
    calc st.records.map (fun r => if r.id = i then applyMeta r m else r)
        = st.records.map id := List.map_congr_left (by simpa using h2)
      _ = st.records := List.map_id _
  cases st with
  | mk records nextId => simpa using hmap

/-- Claim C9 witness: instantiating the amended claim at `storeA` and id 99. -/
theorem claim9_update_missing_id_silent_witness :
    Store.update storeA 99 { importance := some (3/4) } = storeA :=
  claim9_update_missing_id_silent storeA 99 { importance := some (3/4) }
    (by decide)

/-- Claim C10: `MySQLBackend.update` writes only the supplied whitelisted
keys.  (1) The `text` and creation `timestamp` of every row are never
modified, even when the metadata carries a `timestamp` key (as
`consolidate_memory` supplies); (2) unrecognized keys are silently ignored;
(3) an update supplying no whitelisted key leaves a row unchanged; (4) a
supplied key overwrites exactly its own column. -/
theorem claim10_update_frame :
    (∀ (st : Store) (i : Nat) (m : Metadata),
      (Store.update st i m).records.map (fun r => (r.text, r.timestamp)) =
        st.records.map (fun r => (r.text, r.timestamp))) ∧
    (∀ (st : Store) (i : Nat) (m : Metadata) (e : List String),
      Store.update st i { m with extra := e } = Store.update st i m) ∧
    (∀ r : Record, applyMeta r Metadata.empty = r) ∧
    (∀ (r : Record) (v : ℚ),
      applyMeta r { Metadata.empty with truthfulness := some v } =
        { r with truthfulness := v }) := by
  refine ⟨?_, ?_, ?_, ?_⟩
  · intro st i m
    unfold Store.update
    simp only [List.map_map]
    apply List.map_congr_left
    intro r _
    by_cases h : r.id = i <;> simp [h, applyMeta]
  · intro st i m e
    rfl
  · intro r
    rfl
  · intro r v
    rfl

/-- Claim C1: when a processed fact hits the reinforcing-merge path of
`memory.py`'s `consolidate_memory` (similarity gate below 0.2 and an existing
long-term record found), the stored scores after the merge are
`truthfulness = min(1, (old.truthfulness + incoming.truthfulness)/2 + 1/10)`
and `importance = min(1, old.importance + 1/20)`, the latter independent of
the incoming fact's importance. -/
theorem claim1_merge_formula (dist : String → String → ℚ) (st : MState)
    (text : String) (tr imp : ℚ) (t : Nat) (r : Record) (rest : List Record)
    (hgate : chromaGate dist st.shortTerm text = true)
    (hq : Store.query st.store text 5 = r :: rest) :
    ∃ s ∈ (consolidateMemory dist st text tr imp t).store.records,
      s.id = r.id ∧ s.truthfulness = mergeTruthfulness r.truthfulness tr ∧
      s.importance = mergeImportance r.importance := by
  have hr : r ∈ st.store.records :=
    (mem_of_query (hq ▸ List.mem_cons_self r rest)).1
  unfold consolidateMemory
  rw [if_pos hgate, hq]
  exact ⟨applyMeta r
    { truthfulness := some (mergeTruthfulness r.truthfulness tr),
      importance := some (mergeImportance r.importance),
      timestamp := some t, last_accessed := some t },
    mem_update_self hr _, rfl, rfl, rfl⟩

/-- Claim C1 witness: merging the incoming assessment (1/2, 1/2) of `"a"`
into the stored record `recA` at time 7. -/
theorem claim1_merge_formula_witness :
    chromaGate exDist exM.shortTerm "a" = true ∧
    Store.query exM.store "a" 5 = [recA] ∧
    ∃ s ∈ (consolidateMemory exDist exM "a" (1/2) (1/2) 7).store.records,
      s.id = recA.id ∧ s.truthfulness = mergeTruthfulness recA.truthfulness (1/2) ∧
      s.importance = mergeImportance recA.importance := by
  have hg : chromaGate exDist exM.shortTerm "a" = true := by
    norm_num [chromaGate, chromaMinDist, exDist, exEntry, exM]
  exact ⟨hg, rfl, claim1_merge_formula exDist exM "a" (1/2) (1/2) 7 recA [] hg rfl⟩

/-- Claim C2, counterexample: a single `process_content` call on a fresh
`backends.py` manager (capacity 2) with content `"a"` leaves the long-term
store without any record of text `"a"` — the content only reaches the
short-term buffer, so the store does not contain "exactly one" such
record. -/
theorem claim2_counterexample :
    ((bProcessContent none 2 emptyB "s" "a" "q" none 0).store.records.map
        Record.text).count "a" = 0 := rfl

/-- Claim C2 (amended): after any finite sequence of `process_content` calls
on a fresh `backends.py` manager, the long-term texts are pairwise distinct,
so the store contains AT MOST one record per text — a write targeting an
already-stored text always updates the existing row (`INSERT ... ON
DUPLICATE KEY UPDATE`) and never creates a second one; "exactly one" fails
because content can remain in the short-term buffer only. -/
theorem claim2_long_term_text_unique (analyze : Option Analyzer) (maxSize : Nat)
    (calls : List Call) :
    (ltTexts (runCalls analyze maxSize emptyB calls)).Nodup ∧
    ∀ c : String, (ltTexts (runCalls analyze maxSize emptyB calls)).count c ≤ 1 := by
  have h := nodup_ltTexts_run analyze maxSize calls emptyB
    (by simp [ltTexts, emptyB, Store.empty])
  exact ⟨h, fun c => List.nodup_iff_count_le_one.mp h c⟩

/-- Claim C4: the spec scenario on `backends.py`'s manager.  With capacity 2
and the three distinct facts `"A"`, `"B"`, `"C"` (analyzer absent), the
short-term buffer ends as `["B", "C"]` and the long-term store holds exactly
one record, for `"A"`, with the default scores 0.5/0.5 and neutral
sentiment — i.e. the new fact entered the store only through the
buffer-eviction promotion. -/
theorem claim4_promotion_scenario :
    (runCalls none 2 emptyB exCalls).documents = ["B", "C"] ∧
    (runCalls none 2 emptyB exCalls).store.records.map
        (fun r => (r.text, r.truthfulness, r.importance, r.sentiment)) =
      [("A", (1/2 : ℚ), (1/2 : ℚ), "neutral")] := ⟨rfl, rfl⟩

/-- Claim C6: a reinforcing merge of `memory.py`'s `consolidate_memory` never
decreases the stored importance (given the data model's bound
`importance ≤ 1`), and the merged importance never exceeds 1. -/
theorem claim6_importance_monotone (dist : String → String → ℚ) (st : MState)
    (text : String) (tr imp : ℚ) (t : Nat) (r : Record) (rest : List Record)
    (hgate : chromaGate dist st.shortTerm text = true)
    (hq : Store.query st.store text 5 = r :: rest)
    (hb : r.importance ≤ 1) :
    ∃ s ∈ (consolidateMemory dist st text tr imp t).store.records,
      s.id = r.id ∧ r.importance ≤ s.importance ∧ s.importance ≤ 1 := by
  have hr : r ∈ st.store.records :=
    (mem_of_query (hq ▸ List.mem_cons_self r rest)).1
  unfold consolidateMemory
  rw [if_pos hgate, hq]
  refine ⟨applyMeta r
    { truthfulness := some (mergeTruthfulness r.truthfulness tr),
      importance := some (mergeImportance r.importance),
      timestamp := some t, last_accessed := some t }, ?_, rfl, ?_, ?_⟩
  · exact mem_update_self hr _
  · show r.importance ≤ mergeImportance r.importance
    unfold mergeImportance
    exact le_min hb (by linarith)
  · show mergeImportance r.importance ≤ 1
    exact min_le_left 1 _

/-- Claim C6 witness: reinforcing the stored record `recA`
(importance 1/2) at time 8. -/
theorem claim6_importance_monotone_witness :
    recA.importance ≤ 1 ∧
    ∃ s ∈ (consolidateMemory exDist exM "a" (1/2) (9/10) 8).store.records,
      s.id = recA.id ∧ recA.importance ≤ s.importance ∧ s.importance ≤ 1 := by
  have hb : recA.importance ≤ 1 := by norm_num [recA]
  have hg : chromaGate exDist exM.shortTerm "a" = true := by
    norm_num [chromaGate, chromaMinDist, exDist, exEntry, exM]
  exact ⟨hb, claim6_importance_monotone exDist exM "a" (1/2) (9/10) 8 recA [] hg rfl hb⟩

/-- Claim C7: `backends.py`'s `process_content` consumes only the first fact
of the analysis result: two analyzers whose results share the same head fact
produce identical post-call states (short-term buffer and long-term store),
no matter what facts follow the first. -/
theorem claim7_first_fact_only (maxSize : Nat) (st : BState) (s c q : String)
    (pid : Option Nat) (t : Nat) (f : Fact) (l l' : List Fact) :
    bProcessContent (some (fun _ _ _ => f :: l)) maxSize st s c q pid t =
    bProcessContent (some (fun _ _ _ => f :: l')) maxSize st s c q pid t := rfl

/-- Claim C8: whenever the analyzer capability is absent, or returns an empty
result, or a head fact without a `'text'` key, `backends.py`'s
`process_content` substitutes the synthetic fact
`{text: content, truthfulness: 0.5, importance: 0.5, sentiment: neutral}`,
and its short-term effect coincides with the analyzer-absent run; the model
is a total function, mirroring that the fallback is taken instead of raising
the failure. -/
theorem claim8_analyzer_fallback (analyze : Option Analyzer) (maxSize : Nat)
    (st : BState) (s c q : String) (pid : Option Nat) (t : Nat)
    (h : analyze = none ∨ ∃ g, analyze = some g ∧
      (g s c q = [] ∨ ∃ nf fs, g s c q = nf :: fs ∧ nf.text = none)) :
    analysisFact analyze s c q = fallbackFact c ∧
    fallbackFact c = { text := some c, truthfulness := some (1/2),
                       importance := some (1/2), sentiment := some "neutral" } ∧
    (bProcessContent analyze maxSize st s c q pid t).documents =
      (bProcessContent none maxSize st s c q pid t).documents ∧
    (bProcessContent analyze maxSize st s c q pid t).metadatas =
      (bProcessContent none maxSize st s c q pid t).metadatas := by
  have hfact : analysisFact analyze s c q = fallbackFact c := by
    rcases h with rfl | ⟨g, rfl, hg⟩
    · rfl
    · rcases hg with hg | ⟨nf, fs, hg, hnf⟩
      · show (match g s c q with
            | [] => fallbackFact c
            | fact :: _ => if fact.text = none then fallbackFact c else fact) =
          fallbackFact c
        rw [hg]
      · show (match g s c q with
            | [] => fallbackFact c
            | fact :: _ => if fact.text = none then fallbackFact c else fact) =
          fallbackFact c
        rw [hg]
        simp [hnf]
  have hmeta : factMetadata (analysisFact analyze s c q) s pid t =
      factMetadata (analysisFact none s c q) s pid t := by
    rw [hfact]
    rfl
  refine ⟨hfact, rfl, ?_, ?_⟩
  · show (bLongTermMerge analyze (bShortTermAdd maxSize st c
        (factMetadata (analysisFact analyze s c q) s pid t) t) s c q t).documents =
      (bLongTermMerge none (bShortTermAdd maxSize st c
        (factMetadata (analysisFact none s c q) s pid t) t) s c q t).documents
    rw [hmeta, (bLongTermMerge_frame analyze _ s c q t).2.1,
      (bLongTermMerge_frame none _ s c q t).2.1]
  · show (bLongTermMerge analyze (bShortTermAdd maxSize st c
        (factMetadata (analysisFact analyze s c q) s pid t) t) s c q t).metadatas =
      (bLongTermMerge none (bShortTermAdd maxSize st c
        (factMetadata (analysisFact none s c q) s pid t) t) s c q t).metadatas
    rw [hmeta, (bLongTermMerge_frame analyze _ s c q t).2.2,
      (bLongTermMerge_frame none _ s c q t).2.2]

/-- Claim C8 witness: an analyzer that is present but returns the empty
result behaves like the absent analyzer and substitutes the synthetic
fact. -/
theorem claim8_analyzer_fallback_witness :
    analysisFact (some (fun _ _ _ => ([] : List Fact))) "s" "c" "q" = fallbackFact "c" ∧
    fallbackFact "c" = { text := some "c", truthfulness := some (1/2),
                         importance := some (1/2), sentiment := some "neutral" } ∧
    (bProcessContent (some (fun _ _ _ => ([] : List Fact))) 2 emptyB "s" "c" "q" none 0).documents =
      (bProcessContent none 2 emptyB "s" "c" "q" none 0).documents ∧
    (bProcessContent (some (fun _ _ _ => ([] : List Fact))) 2 emptyB "s" "c" "q" none 0).metadatas =
      (bProcessContent none 2 emptyB "s" "c" "q" none 0).metadatas :=
  claim8_analyzer_fallback (some (fun _ _ _ => [])) 2 emptyB "s" "c" "q" none 0
    (Or.inr ⟨_, rfl, Or.inl rfl⟩)

end ChatbotMemory
